import Mathlib

/-!
Shallow embedding of the `automata-like-programming` crate.

The crate is a finite-automaton execution engine:

* `src/automaton.rs` defines `NextState` (the tri-state outcome of one
  visit), the `Automaton` engine holding a start state, `AutomatonResult`
  (why the run stopped), and `Automaton::run`, the driving loop.
* `src/automaton_state.rs` defines the `AutomatonState` trait: an
  identifier accessor and `execute_next_connection`, one step of
  transition logic mutating the caller context.
* `src/simple_impl/simple_state.rs` defines `KeyProvidingData` (the
  context capability producing keys), `SimpleInterStateConnection`
  (matcher, action, target), and `SimpleStateImplementation`, the
  edge-list state: pull one key, scan connections in registration order,
  run the first matching connection's action, return its target.

Embedding choices: Rust's `Rc<RefCell<dyn AutomatonState>>` graph is
modelled as an arena, states addressed by an index type `σ`; the trait
object dispatch becomes a record of functions over `σ`.  Mutation of the
context `&mut D` becomes explicit state passing `D → ... × D`.  Rust's
`Result<T, E>` becomes `Except E T`.  `Automaton::run` can diverge (the
crate has no step budget), so it is embedded fuel-indexed: `none` means
the loop has not terminated within the given fuel.
-/

variable {σ : Type u} {Id : Type v} {D : Type w} {E : Type x}

/-- Outcome of an attempt of determining the next target state
(`NextState` in `src/automaton.rs`); `σ` is the state-reference type. -/
inductive NextState (σ : Type u) : Type u where
  /-- Automaton should take the provided state for the next iteration. -/
  | Continue (next : σ)
  /-- The input data has ended. -/
  | ProcessEnded
  /-- There are no possible target states for the received input. -/
  | NotFound
deriving DecidableEq, Repr

/-- Result of a whole run (`AutomatonResult` in `src/automaton.rs`). -/
inductive AutomatonResult (Id : Type u) (E : Type v) where
  /-- Execution ended because no more keys could be extracted; carries
  the identifier of the state current at that moment. -/
  | EmptyIter (id : Id)
  /-- No connection could be matched for a key; carries the identifier
  of the state current at that moment. -/
  | CouldNotFindNextState (id : Id)
  /-- An error occurred while executing the function assigned to a
  connection. -/
  | Error (e : E)
deriving DecidableEq, Repr

/-- The `AutomatonState` trait of `src/automaton_state.rs`, embedded as a
dispatch table over an arena of states indexed by `σ`.  `get_id_owned`
returns the owned identifier; `execute_next_connection` performs one
visit, threading the mutable context `D` explicitly. -/
structure AutomatonState (σ : Type u) (Id : Type v) (D : Type w) (E : Type x) where
  get_id_owned : σ → Id
  execute_next_connection : σ → D → Except E (NextState σ) × D

/-- The `Automaton` engine of `src/automaton.rs`: it holds the dispatch
table for the state graph and the configured start state. -/
structure Automaton (σ : Type u) (Id : Type v) (D : Type w) (E : Type x) where
  states : AutomatonState σ Id D E
  start_state : σ

/-- One-step-at-a-time embedding of the loop body of `Automaton::run`
(`src/automaton.rs`, lines 66-83), fuel-indexed because the source loop
has no step budget: `none` means the loop did not terminate within
`fuel` iterations. -/
def AutomatonState.runFrom (st : AutomatonState σ Id D E) :
    Nat → σ → D → Option (AutomatonResult Id E × D)
  | 0, _, _ => none
  | fuel + 1, current_state, data =>
    match st.execute_next_connection current_state data with
    | (Except.error err, data1) => some (AutomatonResult.Error err, data1)
    | (Except.ok (NextState.Continue next_state), data1) =>
        st.runFrom fuel next_state data1
    | (Except.ok NextState.NotFound, data1) =>
        some (AutomatonResult.CouldNotFindNextState (st.get_id_owned current_state), data1)
    | (Except.ok NextState.ProcessEnded, data1) =>
        some (AutomatonResult.EmptyIter (st.get_id_owned current_state), data1)

/-- `Automaton::run` started from the configured start state. -/
def Automaton.run (a : Automaton σ Id D E) (fuel : Nat) (data : D) :
    Option (AutomatonResult Id E × D) :=
  a.states.runFrom fuel a.start_state data

/-- The run relation: the loop of `Automaton::run` terminates with
result and final context `r` for some amount of fuel. -/
def Automaton.Runs (a : Automaton σ Id D E) (data : D) (r : AutomatonResult Id E × D) : Prop :=
  ∃ fuel, a.run fuel data = some r

/-- Modelled from the spec: the run-loop pseudocode of spec section 4.3
(current starts at start state; per iteration call
execute_next_connection; Err e returns Error e; Continue next advances;
NotFound returns CouldNotFindNextState of the current id; ProcessEnded
returns EmptyIter of the current id), fuel-indexed the same way. -/
def specRunLoop (st : AutomatonState σ Id D E) :
    Nat → σ → D → Option (AutomatonResult Id E × D)
  | 0, _, _ => none
  | fuel + 1, current, context =>
    match st.execute_next_connection current context with
    | (Except.error e, context1) => some (AutomatonResult.Error e, context1)
    | (Except.ok (NextState.Continue next), context1) => specRunLoop st fuel next context1
    | (Except.ok NextState.NotFound, context1) =>
        some (AutomatonResult.CouldNotFindNextState (st.get_id_owned current), context1)
    | (Except.ok NextState.ProcessEnded, context1) =>
        some (AutomatonResult.EmptyIter (st.get_id_owned current), context1)

/-- The `KeyProvidingData` capability of
`src/simple_impl/simple_state.rs`: data that can provide the next key,
or `none` when the input is exhausted; `&mut self` becomes explicit
threading of `D`. -/
structure KeyProvidingData (K : Type y) (D : Type w) where
  next_key : D → Option K × D

/-- The `SimpleInterStateConnection` of
`src/simple_impl/simple_state.rs`: an edge with a matcher predicate over
keys, an action (`exec_function`) mutating the context and possibly
failing, and the target state reference. -/
structure SimpleInterStateConnection (K : Type y) (σ : Type u) (D : Type w) (E : Type x) where
  matcher : K → Bool
  exec_function : D → K → Except E Unit × D
  connected_state : σ

namespace SimpleInterStateConnection

/-- `SimpleInterStateConnection::new`: builds a connection from a
matcher, an action and a target state. -/
def new (matcher : K → Bool) (exec_function : D → K → Except E Unit × D)
    (next_state : σ) : SimpleInterStateConnection K σ D E :=
  { matcher := matcher, exec_function := exec_function, connected_state := next_state }

/-- The private `do_nothing` action: does nothing and succeeds. -/
def do_nothing (d : D) (_ : K) : Except E Unit × D :=
  (Except.ok (), d)

/-- `SimpleInterStateConnection::new_no_action`: a connection whose
action is `do_nothing`. -/
def new_no_action (matcher : K → Bool) (next_state : σ) :
    SimpleInterStateConnection K σ D E :=
  new matcher (do_nothing (K := K)) next_state

end SimpleInterStateConnection

/-- The `SimpleStateImplementation` of
`src/simple_impl/simple_state.rs`: an identifier plus the ordered list
of registered connections. -/
structure SimpleStateImplementation (K : Type y) (σ : Type u) (Id : Type v) (D : Type w) (E : Type x) where
  id : Id
  next_states : List (SimpleInterStateConnection K σ D E)

namespace SimpleStateImplementation

/-- `SimpleStateImplementation::new`: a simple state with the given
identifier and no connections yet. -/
def new (id : Id) : SimpleStateImplementation K σ Id D E :=
  { id := id, next_states := [] }

/-- `SimpleStateImplementation::register_connection`: appends a
connection to the list of possible next states. -/
def register_connection (s : SimpleStateImplementation K σ Id D E)
    (connection : SimpleInterStateConnection K σ D E) :
    SimpleStateImplementation K σ Id D E :=
  { s with next_states := s.next_states ++ [connection] }

/-- The `for c in &self.next_states` scan inside
`execute_next_connection`: for the first connection whose matcher
accepts the key, run its action (propagating an action error via `?`)
and return `Continue` with its target; if none matches, `NotFound`. -/
def scanConnections (k : K) :
    List (SimpleInterStateConnection K σ D E) → D → Except E (NextState σ) × D
  | [], d => (Except.ok NextState.NotFound, d)
  | c :: rest, d =>
    if c.matcher k then
      match c.exec_function d k with
      | (Except.error e, d1) => (Except.error e, d1)
      | (Except.ok _, d1) => (Except.ok (NextState.Continue c.connected_state), d1)
    else
      scanConnections k rest d

/-- `SimpleStateImplementation::execute_next_connection`
(`src/simple_impl/simple_state.rs`, lines 82-95): pop one key from the
data; if none, `ProcessEnded`; otherwise scan the connections. -/
def execute_next_connection (s : SimpleStateImplementation K σ Id D E)
    (kp : KeyProvidingData K D) (d : D) : Except E (NextState σ) × D :=
  match kp.next_key d with
  | (some k, d1) => scanConnections k s.next_states d1
  | (none, d1) => (Except.ok NextState.ProcessEnded, d1)

end SimpleStateImplementation

/-- A graph of simple states (arena indexed by `σ`), viewed through the
`AutomatonState` trait exactly as the trait impl in
`src/simple_impl/simple_state.rs` provides it. -/
def simpleGraphStates (kp : KeyProvidingData K D)
    (g : σ → SimpleStateImplementation K σ Id D E) : AutomatonState σ Id D E where
  get_id_owned s := (g s).id
  execute_next_connection s d := (g s).execute_next_connection kp d

/-- An `Automaton` whose every state is a `SimpleStateImplementation`
in the arena `g`, as built by `Automaton::new` with a graph init
function returning `start`. -/
def simpleAutomaton (kp : KeyProvidingData K D)
    (g : σ → SimpleStateImplementation K σ Id D E) (start : σ) : Automaton σ Id D E :=
  { states := simpleGraphStates kp g, start_state := start }

/-- Trace predicate: from state `s` with context `d`, `n` successful
`Continue` transitions of the run loop lead to state `t` with context
`e`. -/
inductive AutomatonState.ReachesIn (st : AutomatonState σ Id D E) :
    Nat → σ → D → σ → D → Prop
  | refl (s : σ) (d : D) : AutomatonState.ReachesIn st 0 s d s d
  | step {n : Nat} {s : σ} {d : D} {s1 : σ} {d1 : D} {t : σ} {e : D} :
      st.execute_next_connection s d = (Except.ok (NextState.Continue s1), d1) →
      AutomatonState.ReachesIn st n s1 d1 t e →
      AutomatonState.ReachesIn st (n + 1) s d t e

/-- Concrete context for witnesses: a pair of the remaining key list
and a log of committed action effects, mirroring the crate's test
fixture (`TestData` in `src/simple_impl/simple_state.rs`): a key source
plus a growable buffer. -/
abbrev DemoD : Type := List Nat × List Nat

/-- Concrete key capability for witnesses: pop the head of the key
list. -/
def demoKp : KeyProvidingData Nat DemoD where
  next_key d :=
    match d.1 with
    | [] => (none, d)
    | k :: t => (some k, (t, d.2))

/-- Concrete succeeding action for witnesses: append `tag * 100 + key`
to the log. -/
def appendAction (tag : Nat) : DemoD → Nat → Except Nat Unit × DemoD :=
  fun d k => (Except.ok (), (d.1, d.2 ++ [tag * 100 + k]))

/-- Concrete failing action for witnesses: return the error `e`,
leaving the context unchanged. -/
def failAction (e : Nat) : DemoD → Nat → Except Nat Unit × DemoD :=
  fun d _ => (Except.error e, d)

/-- Concrete three-state simple graph for witnesses: state 0 takes key
1 to state 1 (logging 101), state 1 fails with error 7 on key 9 and
takes key 2 to state 2 (logging 202), state 2 has no connections. -/
def demoGraph : Nat → SimpleStateImplementation Nat Nat Nat DemoD Nat
  | 0 => { id := 0, next_states :=
      [{ matcher := fun k => k == 1, exec_function := appendAction 1, connected_state := 1 }] }
  | 1 => { id := 1, next_states :=
      [{ matcher := fun k => k == 9, exec_function := failAction 7, connected_state := 0 },
       { matcher := fun k => k == 2, exec_function := appendAction 2, connected_state := 2 }] }
  | _ => { id := 2, next_states := [] }

/-- Concrete one-state graph for witnesses of the self-loop claim:
state 0 has a single connection matching every key, with a succeeding
logging action, targeting state 0 itself. -/
def loopGraph : Nat → SimpleStateImplementation Nat Nat Nat Nat Nat
  | _ => { id := 0, next_states :=
      [{ matcher := fun _ => true, exec_function := fun d _ => (Except.ok (), d),
         connected_state := 0 }] }

/-- Concrete unbounded key capability for the self-loop witness: the
context is a counter, every pull yields the counter and increments
it. -/
def countKp : KeyProvidingData Nat Nat where
  next_key n := (some n, n + 1)

namespace SimpleStateImplementation

/-- Connections before the first match are skipped without running any
action and without touching the context. -/
theorem scanConnections_append_no_match {k : K}
    {pre : List (SimpleInterStateConnection K σ D E)}
    (l : List (SimpleInterStateConnection K σ D E)) (d : D)
    (hpre : ∀ p ∈ pre, p.matcher k = false) :
    scanConnections k (pre ++ l) d = scanConnections k l d := by
  induction pre with
  | nil => rfl
  | cons p rest ih =>
      have hp : p.matcher k = false := hpre p (List.mem_cons_self p rest)
      have hskip : scanConnections k ((p :: rest) ++ l) d = scanConnections k (rest ++ l) d := by
        simp [scanConnections, hp]
      rw [hskip]
      exact ih fun q hq => hpre q (List.mem_cons_of_mem p hq)

/-- A matching head connection is taken: its action runs, an error is
propagated as is, success yields `Continue` with its target. -/
theorem scanConnections_cons_match {k : K}
    {c : SimpleInterStateConnection K σ D E}
    (rest : List (SimpleInterStateConnection K σ D E)) (d : D)
    (hc : c.matcher k = true) :
    scanConnections k (c :: rest) d =
      (match c.exec_function d k with
       | (Except.error e, d1) => (Except.error e, d1)
       | (Except.ok _, d1) => (Except.ok (NextState.Continue c.connected_state), d1)) := by
  simp [scanConnections, hc]

/-- If no connection in the list matches the key, the scan returns
`NotFound` and leaves the context untouched. -/
theorem scanConnections_no_match {k : K}
    {l : List (SimpleInterStateConnection K σ D E)} (d : D)
    (hl : ∀ c ∈ l, c.matcher k = false) :
    scanConnections k l d = (Except.ok NextState.NotFound, d) := by
  induction l with
  | nil => rfl
  | cons c rest ih =>
      have hc : c.matcher k = false := hl c (List.mem_cons_self c rest)
      have hskip : scanConnections k (c :: rest) d = scanConnections k rest d := by
        simp [scanConnections, hc]
      rw [hskip]
      exact ih fun q hq => hl q (List.mem_cons_of_mem c hq)

/-- Every `Continue` outcome of the scan is produced by the action of
some matching connection of the list, applied to the incoming context. -/
theorem scanConnections_continue_inv {k : K}
    {l : List (SimpleInterStateConnection K σ D E)} {d : D} {t : σ} {d2 : D}
    (h : scanConnections k l d = (Except.ok (NextState.Continue t), d2)) :
    ∃ c ∈ l, c.matcher k = true ∧ c.exec_function d k = (Except.ok (), d2) ∧
      t = c.connected_state := by
  induction l generalizing d with
  | nil => simp [scanConnections] at h
  | cons c rest ih =>
      by_cases hc : c.matcher k = true
      · rw [scanConnections_cons_match rest d hc] at h
        cases hx : c.exec_function d k with
        | mk res d1 =>
          rw [hx] at h
          cases res with
          | error e => simp at h
          | ok u =>
              simp only [Prod.mk.injEq, Except.ok.injEq, NextState.Continue.injEq] at h
              obtain ⟨ht, hd⟩ := h
              cases u
              exact ⟨c, List.mem_cons_self c rest, hc, by rw [hx, hd], ht.symm⟩
      · have hc' : c.matcher k = false := by
          cases hm : c.matcher k
          · rfl
          · exact absurd hm hc
        rw [show scanConnections k (c :: rest) d = scanConnections k rest d by
          simp [scanConnections, hc']] at h
        obtain ⟨c1, hmem, hrest⟩ := ih h
        exact ⟨c1, List.mem_cons_of_mem c hmem, hrest⟩

end SimpleStateImplementation

/-- Fuel monotonicity: once the run loop has terminated with some
result, more fuel does not change it. -/
theorem AutomatonState.runFrom_mono (st : AutomatonState σ Id D E)
    {f1 f2 : Nat} {s : σ} {d : D} {r : AutomatonResult Id E × D}
    (hle : f1 ≤ f2) (h : st.runFrom f1 s d = some r) :
    st.runFrom f2 s d = some r := by
  induction f1 generalizing f2 s d with
  | zero => simp [runFrom] at h
  | succ n ih =>
      obtain ⟨m, rfl⟩ : ∃ m, f2 = m + 1 := ⟨f2 - 1, by omega⟩
      simp only [runFrom] at h ⊢
      cases hx : st.execute_next_connection s d with
      | mk res d1 =>
        rw [hx] at h
        cases res with
        | error e => exact h
        | ok ns =>
            cases ns with
            | Continue next => exact ih (by omega) h
            | ProcessEnded => exact h
            | NotFound => exact h

/-- The run relation is deterministic: a run from one engine and one
initial context has at most one outcome. -/
theorem Automaton.runs_unique (a : Automaton σ Id D E) {d : D}
    {r1 r2 : AutomatonResult Id E × D} (h1 : a.Runs d r1) (h2 : a.Runs d r2) :
    r1 = r2 := by
  obtain ⟨f1, h1⟩ := h1
  obtain ⟨f2, h2⟩ := h2
  have h1' := AutomatonState.runFrom_mono a.states (Nat.le_max_left f1 f2) h1
  have h2' := AutomatonState.runFrom_mono a.states (Nat.le_max_right f1 f2) h2
  exact Option.some_injective _ (h1'.symm.trans h2')

/-- A trace of `n` `Continue` transitions starts off the run loop: running
with `n + fuel` fuel from the trace's source equals running with `fuel`
from its end. -/
theorem AutomatonState.runFrom_of_reachesIn (st : AutomatonState σ Id D E)
    {n : Nat} {s : σ} {d : D} {t : σ} {e : D}
    (h : st.ReachesIn n s d t e) (fuel : Nat) :
    st.runFrom (n + fuel) s d = st.runFrom fuel t e := by
  induction h with
  | refl s d => simp
  | @step m s d s1 d1 t e hstep htail ih =>
      rw [show m + 1 + fuel = (m + fuel) + 1 from by omega]
      simp only [runFrom, hstep]
      exact ih

/-- C1: for every graph (dispatch table) and context, `Automaton::run`
behaves as the loop specified in the spec: start from the configured
start state, repeatedly call the current state's
`execute_next_connection`; `Err e` yields `Error e`; `Continue next`
advances the current state; `NotFound` yields `CouldNotFindNextState`
of the current state's identifier; `ProcessEnded` yields `EmptyIter` of
the current state's identifier.  Stated as: the embedded `run` equals
the spec-modelled loop started at the start state, at every fuel. -/
theorem automaton_run_refines_spec_loop
    (a : Automaton σ Id D E) (fuel : Nat) (data : D) :
    a.run fuel data = specRunLoop a.states fuel a.start_state data := by
  suffices h : ∀ n s d, a.states.runFrom n s d = specRunLoop a.states n s d by
    exact h fuel a.start_state data
  intro n
  induction n with
  | zero => intro s d; rfl
  | succ m ih =>
      intro s d
      unfold AutomatonState.runFrom specRunLoop
      cases hx : a.states.execute_next_connection s d with
      | mk res d1 =>
        cases res with
        | error e => simp
        | ok ns =>
            cases ns with
            | Continue next => simpa using ih next d1
            | ProcessEnded => simp
            | NotFound => simp

/-- C2: one call to `SimpleStateImplementation::execute_next_connection`
pulls exactly one key from the context; if no key is available it
returns `ProcessEnded`; otherwise it scans the connections in
registration order and, for the first connection whose matcher accepts
the key, runs that connection's action on the advanced context,
propagating an action error immediately, and on success returns
`Continue` with that connection's target; if no matcher accepts the key
it returns `NotFound`. -/
theorem simple_state_execute_spec
    (kp : KeyProvidingData K D) (s : SimpleStateImplementation K σ Id D E) (d : D) :
    (∀ d1, kp.next_key d = (none, d1) →
        s.execute_next_connection kp d = (Except.ok NextState.ProcessEnded, d1)) ∧
    (∀ k d1, kp.next_key d = (some k, d1) →
        s.execute_next_connection kp d =
          SimpleStateImplementation.scanConnections k s.next_states d1 ∧
        (∀ pre c rest, s.next_states = pre ++ c :: rest →
            (∀ p ∈ pre, p.matcher k = false) → c.matcher k = true →
            s.execute_next_connection kp d =
              (match c.exec_function d1 k with
               | (Except.error e, d2) => (Except.error e, d2)
               | (Except.ok _, d2) =>
                   (Except.ok (NextState.Continue c.connected_state), d2))) ∧
        ((∀ c ∈ s.next_states, c.matcher k = false) →
            s.execute_next_connection kp d = (Except.ok NextState.NotFound, d1))) := by
  constructor
  · intro d1 hk
    simp [SimpleStateImplementation.execute_next_connection, hk]
  · intro k d1 hk
    have hbase : s.execute_next_connection kp d =
        SimpleStateImplementation.scanConnections k s.next_states d1 := by
      simp [SimpleStateImplementation.execute_next_connection, hk]
    refine ⟨hbase, ?_, ?_⟩
    · intro pre c rest hsplit hpre hc
      rw [hbase, hsplit,
        SimpleStateImplementation.scanConnections_append_no_match _ _ hpre,
        SimpleStateImplementation.scanConnections_cons_match _ _ hc]
    · intro hnone
      rw [hbase, SimpleStateImplementation.scanConnections_no_match _ hnone]

/-- Witness for C2 at concrete inputs: a taken connection, a no-match
visit and an exhausted key source on the demo graph. -/
theorem simple_state_execute_spec_witness :
    (demoGraph 0).execute_next_connection demoKp ([1], []) =
      (Except.ok (NextState.Continue 1), ([], [101])) ∧
    (demoGraph 2).execute_next_connection demoKp ([5], [101, 202]) =
      (Except.ok NextState.NotFound, ([], [101, 202])) ∧
    (demoGraph 2).execute_next_connection demoKp ([], [4]) =
      (Except.ok NextState.ProcessEnded, ([], [4])) := by
  refine ⟨?_, ?_, ?_⟩
  · exact ((simple_state_execute_spec demoKp (demoGraph 0) ([1], [])).2 1 ([], [])
      rfl).2.1 []
      { matcher := fun k => k == 1, exec_function := appendAction 1, connected_state := 1 }
      [] rfl (by simp) rfl
  · exact ((simple_state_execute_spec demoKp (demoGraph 2) ([5], [101, 202])).2 5
      ([], [101, 202]) rfl).2.2 (by simp [demoGraph])
  · exact (simple_state_execute_spec demoKp (demoGraph 2) ([], [4])).1 ([], [4]) rfl

/-- C9: on a context whose key source yields a key, every call to
`SimpleStateImplementation::execute_next_connection` consumes exactly
one key: the whole outcome is computed from the advanced context,
including a `NotFound` outcome (context left exactly at the advanced
point) and an action failure (context is the failing action's output on
the advanced context); the consumed key is never restored. -/
theorem execute_consumes_exactly_one_key
    (kp : KeyProvidingData K D) (s : SimpleStateImplementation K σ Id D E)
    {d : D} {k : K} {d1 : D} (hk : kp.next_key d = (some k, d1)) :
    s.execute_next_connection kp d =
      SimpleStateImplementation.scanConnections k s.next_states d1 ∧
    ((∀ c ∈ s.next_states, c.matcher k = false) →
        s.execute_next_connection kp d = (Except.ok NextState.NotFound, d1)) ∧
    (∀ pre c rest e d2, s.next_states = pre ++ c :: rest →
        (∀ p ∈ pre, p.matcher k = false) → c.matcher k = true →
        c.exec_function d1 k = (Except.error e, d2) →
        s.execute_next_connection kp d = (Except.error e, d2)) := by
  have hbase : s.execute_next_connection kp d =
      SimpleStateImplementation.scanConnections k s.next_states d1 := by
    simp [SimpleStateImplementation.execute_next_connection, hk]
  refine ⟨hbase, ?_, ?_⟩
  · intro hnone
    rw [hbase, SimpleStateImplementation.scanConnections_no_match _ hnone]
  · intro pre c rest e d2 hsplit hpre hc herr
    rw [hbase, hsplit,
      SimpleStateImplementation.scanConnections_append_no_match _ _ hpre,
      SimpleStateImplementation.scanConnections_cons_match _ _ hc, herr]

/-- Witness for C9 at concrete inputs: the demo graph consumes the key
both on an action failure and on a no-match visit. -/
theorem execute_consumes_exactly_one_key_witness :
    (demoGraph 1).execute_next_connection demoKp ([9], []) =
      (Except.error 7, ([], [])) ∧
    (demoGraph 2).execute_next_connection demoKp ([5], [7]) =
      (Except.ok NextState.NotFound, ([], [7])) := by
  refine ⟨?_, ?_⟩
  · exact (execute_consumes_exactly_one_key demoKp (demoGraph 1)
      (show demoKp.next_key ([9], []) = (some 9, ([], [])) from rfl)).2.2 []
      { matcher := fun k => k == 9, exec_function := failAction 7, connected_state := 0 }
      [{ matcher := fun k => k == 2, exec_function := appendAction 2, connected_state := 2 }]
      7 ([], []) rfl (by simp) rfl rfl
  · exact (execute_consumes_exactly_one_key demoKp (demoGraph 2)
      (show demoKp.next_key ([5], [7]) = (some 5, ([], [7])) from rfl)).2.1
      (by simp [demoGraph])

/-- C4: when a `SimpleStateImplementation` state holds two connections
whose matchers both accept the pulled key, the connection registered
earlier (with no accepting matcher before it) is the one taken: its
action runs and determines the outcome, and the whole outcome is
unchanged when the later matching connection is replaced by any other
connection, so the later connection's action never executes for that
key. -/
theorem first_registered_match_wins
    (kp : KeyProvidingData K D) (s : SimpleStateImplementation K σ Id D E) (d : D)
    {k : K} {d1 : D}
    (pre mid post : List (SimpleInterStateConnection K σ D E))
    (c c2 : SimpleInterStateConnection K σ D E)
    (hk : kp.next_key d = (some k, d1))
    (hsplit : s.next_states = pre ++ c :: (mid ++ c2 :: post))
    (hpre : ∀ p ∈ pre, p.matcher k = false)
    (hc : c.matcher k = true) (hc2 : c2.matcher k = true) :
    s.execute_next_connection kp d =
      (match c.exec_function d1 k with
       | (Except.error e, d2) => (Except.error e, d2)
       | (Except.ok _, d2) => (Except.ok (NextState.Continue c.connected_state), d2)) ∧
    ∀ c2alt : SimpleInterStateConnection K σ D E,
      SimpleStateImplementation.execute_next_connection
        { id := s.id, next_states := pre ++ c :: (mid ++ c2alt :: post) } kp d =
        s.execute_next_connection kp d := by
  have hfirst : ∀ tail : List (SimpleInterStateConnection K σ D E),
      SimpleStateImplementation.scanConnections k (pre ++ c :: tail) d1 =
        (match c.exec_function d1 k with
         | (Except.error e, d2) => (Except.error e, d2)
         | (Except.ok _, d2) => (Except.ok (NextState.Continue c.connected_state), d2)) := by
    intro tail
    rw [SimpleStateImplementation.scanConnections_append_no_match _ _ hpre,
      SimpleStateImplementation.scanConnections_cons_match _ _ hc]
  have hbase : s.execute_next_connection kp d =
      SimpleStateImplementation.scanConnections k s.next_states d1 := by
    simp [SimpleStateImplementation.execute_next_connection, hk]
  constructor
  · rw [hbase, hsplit, hfirst]
  · intro c2alt
    have halt : SimpleStateImplementation.execute_next_connection
        { id := s.id, next_states := pre ++ c :: (mid ++ c2alt :: post) } kp d =
        SimpleStateImplementation.scanConnections k (pre ++ c :: (mid ++ c2alt :: post)) d1 := by
      simp [SimpleStateImplementation.execute_next_connection, hk]
    rw [halt, hfirst, hbase, hsplit, hfirst]

/-- Witness for C4 at a concrete input: a state with two connections
both matching key 3; the earlier one is taken and the outcome is
unchanged when the later one is replaced by a failing connection. -/
theorem first_registered_match_wins_witness :
    (SimpleStateImplementation.mk 5
        [{ matcher := fun k => k == 3, exec_function := appendAction 3, connected_state := 1 },
         { matcher := fun _ => true, exec_function := appendAction 9, connected_state := 2 }] :
      SimpleStateImplementation Nat Nat Nat DemoD Nat).execute_next_connection
        demoKp ([3], []) = (Except.ok (NextState.Continue 1), ([], [303])) ∧
    (SimpleStateImplementation.mk 5
        [{ matcher := fun k => k == 3, exec_function := appendAction 3, connected_state := 1 },
         { matcher := fun _ => true, exec_function := failAction 8, connected_state := 2 }] :
      SimpleStateImplementation Nat Nat Nat DemoD Nat).execute_next_connection
        demoKp ([3], []) =
      (SimpleStateImplementation.mk 5
        [{ matcher := fun k => k == 3, exec_function := appendAction 3, connected_state := 1 },
         { matcher := fun _ => true, exec_function := appendAction 9, connected_state := 2 }] :
      SimpleStateImplementation Nat Nat Nat DemoD Nat).execute_next_connection
        demoKp ([3], []) := by
  have h := first_registered_match_wins demoKp
    (SimpleStateImplementation.mk 5
      [{ matcher := fun k => k == 3, exec_function := appendAction 3, connected_state := 1 },
       { matcher := fun _ => true, exec_function := appendAction 9, connected_state := 2 }])
    ([3], []) []
    [] []
    { matcher := fun k => k == 3, exec_function := appendAction 3, connected_state := 1 }
    { matcher := fun _ => true, exec_function := appendAction 9, connected_state := 2 }
    (show demoKp.next_key ([3], []) = (some 3, ([], [])) from rfl)
    rfl (by simp) rfl rfl
  exact ⟨h.1, h.2 { matcher := fun _ => true, exec_function := failAction 8, connected_state := 2 }⟩

/-- C8: a connection built with
`SimpleInterStateConnection::new_no_action` is the very connection built
with `SimpleInterStateConnection::new` using the action that does
nothing and succeeds; in particular it has the same matcher, and when it
is the scanned head and its matcher accepts the key it yields `Continue`
with its target with the context untouched and no error, while on a
rejected key the scan just moves on. -/
theorem new_no_action_no_op_equiv (m : K → Bool) (t : σ) :
    (SimpleInterStateConnection.new_no_action m t : SimpleInterStateConnection K σ D E) =
      SimpleInterStateConnection.new m (fun d _ => (Except.ok (), d)) t ∧
    (SimpleInterStateConnection.new_no_action m t :
        SimpleInterStateConnection K σ D E).matcher = m ∧
    ∀ (k : K) (d : D) (rest : List (SimpleInterStateConnection K σ D E)),
      (m k = true →
        SimpleStateImplementation.scanConnections k
          ((SimpleInterStateConnection.new_no_action m t :
            SimpleInterStateConnection K σ D E) :: rest) d =
          (Except.ok (NextState.Continue t), d)) ∧
      (m k = false →
        SimpleStateImplementation.scanConnections k
          ((SimpleInterStateConnection.new_no_action m t :
            SimpleInterStateConnection K σ D E) :: rest) d =
          SimpleStateImplementation.scanConnections k rest d) := by
  refine ⟨rfl, rfl, ?_⟩
  intro k d rest
  constructor
  · intro hm
    simp [SimpleStateImplementation.scanConnections,
      SimpleInterStateConnection.new_no_action, SimpleInterStateConnection.new,
      SimpleInterStateConnection.do_nothing, hm]
  · intro hm
    simp [SimpleStateImplementation.scanConnections,
      SimpleInterStateConnection.new_no_action, SimpleInterStateConnection.new,
      SimpleInterStateConnection.do_nothing, hm]

/-- Witness for C8 at concrete inputs: the no-action connection on an
accepted key passes through with the context untouched, and on a
rejected key the scan falls through to the remaining connections. -/
theorem new_no_action_no_op_equiv_witness :
    SimpleStateImplementation.scanConnections 4
      ((SimpleInterStateConnection.new_no_action (fun k => k == 4) 8 :
        SimpleInterStateConnection Nat Nat DemoD Nat) :: []) ([9], [2]) =
      (Except.ok (NextState.Continue 8), ([9], [2])) ∧
    SimpleStateImplementation.scanConnections 5
      ((SimpleInterStateConnection.new_no_action (fun k => k == 4) 8 :
        SimpleInterStateConnection Nat Nat DemoD Nat) :: []) ([9], [2]) =
      (Except.ok NextState.NotFound, ([9], [2])) := by
  refine ⟨?_, ?_⟩
  · exact ((new_no_action_no_op_equiv (fun k => k == 4) 8).2.2 4 ([9], [2]) []).1 rfl
  · exact ((new_no_action_no_op_equiv (fun k => k == 4) 8).2.2 5 ([9], [2]) []).2 rfl

/-- Unfolding equation for one iteration of the run loop. -/
theorem AutomatonState.runFrom_succ (st : AutomatonState σ Id D E)
    (fuel : Nat) (s : σ) (d : D) :
    st.runFrom (fuel + 1) s d =
      match st.execute_next_connection s d with
      | (Except.error err, d1) => some (AutomatonResult.Error err, d1)
      | (Except.ok (NextState.Continue s1), d1) => st.runFrom fuel s1 d1
      | (Except.ok NextState.NotFound, d1) =>
          some (AutomatonResult.CouldNotFindNextState (st.get_id_owned s), d1)
      | (Except.ok NextState.ProcessEnded, d1) =>
          some (AutomatonResult.EmptyIter (st.get_id_owned s), d1) := rfl

/-- C3: if, after a trace of `n` committed transitions, the action of
the next taken transition returns an error `e`, then `run` returns
`Error e` with the context exactly as the failing action left it (the
earlier transitions' mutations remain, no rollback), and this is the
unique outcome of the run, so no state after the failing one is ever
visited. -/
theorem run_action_error_fail_fast
    (kp : KeyProvidingData K D) (g : σ → SimpleStateImplementation K σ Id D E)
    (start : σ) (d0 : D) {n : Nat} {s : σ} {d : D} {k : K} {d1 : D}
    (pre rest : List (SimpleInterStateConnection K σ D E))
    (c : SimpleInterStateConnection K σ D E) {e : E} {d2 : D}
    (htrace : (simpleGraphStates kp g).ReachesIn n start d0 s d)
    (hk : kp.next_key d = (some k, d1))
    (hsplit : (g s).next_states = pre ++ c :: rest)
    (hpre : ∀ p ∈ pre, p.matcher k = false)
    (hc : c.matcher k = true)
    (herr : c.exec_function d1 k = (Except.error e, d2)) :
    (simpleAutomaton kp g start).Runs d0 (AutomatonResult.Error e, d2) ∧
    ∀ r, (simpleAutomaton kp g start).Runs d0 r →
      r = (AutomatonResult.Error e, d2) := by
  have hstep : (simpleGraphStates kp g).execute_next_connection s d =
      (Except.error e, d2) := by
    show (g s).execute_next_connection kp d = _
    have hbase : (g s).execute_next_connection kp d =
        SimpleStateImplementation.scanConnections k (g s).next_states d1 := by
      simp [SimpleStateImplementation.execute_next_connection, hk]
    rw [hbase, hsplit,
      SimpleStateImplementation.scanConnections_append_no_match _ _ hpre,
      SimpleStateImplementation.scanConnections_cons_match _ _ hc, herr]
  have hruns : (simpleAutomaton kp g start).Runs d0 (AutomatonResult.Error e, d2) := by
    refine ⟨n + 1, ?_⟩
    show (simpleGraphStates kp g).runFrom (n + 1) start d0 = _
    rw [AutomatonState.runFrom_of_reachesIn _ htrace 1,
      show (1 : Nat) = 0 + 1 from rfl, AutomatonState.runFrom_succ, hstep]
  exact ⟨hruns, fun r hr => (simpleAutomaton kp g start).runs_unique hr hruns⟩

/-- Witness for C3 at a concrete input: on the demo graph, keys `[1, 9]`
commit the first action (log `101`), then the second visit's matched
action fails with error `7`; the run returns that error with only the
first action committed. -/
theorem run_action_error_fail_fast_witness :
    (simpleAutomaton demoKp demoGraph 0).Runs ([1, 9], [])
      (AutomatonResult.Error 7, ([], [101])) := by
  have htrace : (simpleGraphStates demoKp demoGraph).ReachesIn 1 0 ([1, 9], [])
      1 ([9], [101]) :=
    AutomatonState.ReachesIn.step rfl (AutomatonState.ReachesIn.refl _ _)
  exact (run_action_error_fail_fast demoKp demoGraph 0 ([1, 9], [])
    [] [{ matcher := fun k => k == 2, exec_function := appendAction 2, connected_state := 2 }]
    { matcher := fun k => k == 9, exec_function := failAction 7, connected_state := 0 }
    htrace (show demoKp.next_key ([9], [101]) = (some 9, ([], [101])) from rfl)
    rfl (by simp) rfl rfl).1

/-- C5: during a run over simple states, the context is mutated, beyond
the key pull, only by the action of the connection actually taken:
every `Continue` visit factors as one key pull followed by the action
of one matching registered connection (so unmatched connections'
actions never execute), and a run that ends in `CouldNotFindNextState`
leaves the context exactly as produced by the visits strictly before
the terminal state plus the terminal key pull, with no action from the
terminal state. -/
theorem context_frame_property
    (kp : KeyProvidingData K D) (g : σ → SimpleStateImplementation K σ Id D E) :
    (∀ s d t d2,
        (g s).execute_next_connection kp d = (Except.ok (NextState.Continue t), d2) →
        ∃ k d1 c, kp.next_key d = (some k, d1) ∧ c ∈ (g s).next_states ∧
          c.matcher k = true ∧ c.exec_function d1 k = (Except.ok (), d2) ∧
          t = c.connected_state) ∧
    (∀ start d0 n s d k d1,
        (simpleGraphStates kp g).ReachesIn n start d0 s d →
        kp.next_key d = (some k, d1) →
        (∀ c ∈ (g s).next_states, c.matcher k = false) →
        (simpleAutomaton kp g start).Runs d0
          (AutomatonResult.CouldNotFindNextState (g s).id, d1) ∧
        ∀ r, (simpleAutomaton kp g start).Runs d0 r →
          r = (AutomatonResult.CouldNotFindNextState (g s).id, d1)) := by
  constructor
  · intro s d t d2 h
    cases hnk : kp.next_key d with
    | mk o d1 =>
      cases o with
      | none =>
          have hbase : (g s).execute_next_connection kp d =
              (Except.ok NextState.ProcessEnded, d1) := by
            simp [SimpleStateImplementation.execute_next_connection, hnk]
          rw [hbase] at h
          simp at h
      | some k =>
          have hbase : (g s).execute_next_connection kp d =
              SimpleStateImplementation.scanConnections k (g s).next_states d1 := by
            simp [SimpleStateImplementation.execute_next_connection, hnk]
          rw [hbase] at h
          obtain ⟨c, hmem, hm, hex, ht⟩ :=
            SimpleStateImplementation.scanConnections_continue_inv h
          exact ⟨k, d1, c, rfl, hmem, hm, hex, ht⟩
  · intro start d0 n s d k d1 htrace hk hnone
    have hstep : (simpleGraphStates kp g).execute_next_connection s d =
        (Except.ok NextState.NotFound, d1) := by
      show (g s).execute_next_connection kp d = _
      have hbase : (g s).execute_next_connection kp d =
          SimpleStateImplementation.scanConnections k (g s).next_states d1 := by
        simp [SimpleStateImplementation.execute_next_connection, hk]
      rw [hbase, SimpleStateImplementation.scanConnections_no_match _ hnone]
    have hruns : (simpleAutomaton kp g start).Runs d0
        (AutomatonResult.CouldNotFindNextState (g s).id, d1) := by
      refine ⟨n + 1, ?_⟩
      show (simpleGraphStates kp g).runFrom (n + 1) start d0 = _
      rw [AutomatonState.runFrom_of_reachesIn _ htrace 1,
        show (1 : Nat) = 0 + 1 from rfl, AutomatonState.runFrom_succ, hstep]
      rfl
    exact ⟨hruns, fun r hr => (simpleAutomaton kp g start).runs_unique hr hruns⟩

/-- Witness for C5 at concrete inputs: on the demo graph, the only
mutation of a `Continue` visit is its taken connection's action, and
the run on keys `[1, 2, 5]` ends in `CouldNotFindNextState 2` with the
log holding exactly the two earlier actions. -/
theorem context_frame_property_witness :
    (∃ k d1 c, demoKp.next_key ([1], []) = (some k, d1) ∧
      c ∈ (demoGraph 0).next_states ∧ c.matcher k = true ∧
      c.exec_function d1 k = (Except.ok (), ([], [101])) ∧
      (1 : Nat) = c.connected_state) ∧
    (simpleAutomaton demoKp demoGraph 0).Runs ([1, 2, 5], [])
      (AutomatonResult.CouldNotFindNextState 2, ([], [101, 202])) := by
  have h := context_frame_property demoKp demoGraph
  refine ⟨?_, ?_⟩
  · exact h.1 0 ([1], []) 1 ([], [101]) rfl
  · have htrace : (simpleGraphStates demoKp demoGraph).ReachesIn 2 0 ([1, 2, 5], [])
        2 ([5], [101, 202]) :=
      AutomatonState.ReachesIn.step rfl
        (AutomatonState.ReachesIn.step rfl (AutomatonState.ReachesIn.refl _ _))
    exact (h.2 0 ([1, 2, 5], []) 2 2 ([5], [101, 202]) 5 ([], [101, 202])
      htrace rfl (by simp [demoGraph])).1

/-- C6: if, after a trace of committed transitions, the key source is
drained at the current state, `run` returns `EmptyIter` carrying that
last visited state's identifier, and this is the unique outcome of the
run. -/
theorem run_exhaustion_empty_iter
    (kp : KeyProvidingData K D) (g : σ → SimpleStateImplementation K σ Id D E)
    (start : σ) (d0 : D) {n : Nat} {s : σ} {d : D} {d1 : D}
    (htrace : (simpleGraphStates kp g).ReachesIn n start d0 s d)
    (hk : kp.next_key d = (none, d1)) :
    (simpleAutomaton kp g start).Runs d0 (AutomatonResult.EmptyIter (g s).id, d1) ∧
    ∀ r, (simpleAutomaton kp g start).Runs d0 r →
      r = (AutomatonResult.EmptyIter (g s).id, d1) := by
  have hstep : (simpleGraphStates kp g).execute_next_connection s d =
      (Except.ok NextState.ProcessEnded, d1) := by
    show (g s).execute_next_connection kp d = _
    simp [SimpleStateImplementation.execute_next_connection, hk]
  have hruns : (simpleAutomaton kp g start).Runs d0
      (AutomatonResult.EmptyIter (g s).id, d1) := by
    refine ⟨n + 1, ?_⟩
    show (simpleGraphStates kp g).runFrom (n + 1) start d0 = _
    rw [AutomatonState.runFrom_of_reachesIn _ htrace 1,
      show (1 : Nat) = 0 + 1 from rfl, AutomatonState.runFrom_succ, hstep]
    rfl
  exact ⟨hruns, fun r hr => (simpleAutomaton kp g start).runs_unique hr hruns⟩

/-- Witness for C6 at a concrete input: on the demo graph, keys `[1, 2]`
drive two committed transitions to state 2 and the drained key source
makes the run return `EmptyIter 2`. -/
theorem run_exhaustion_empty_iter_witness :
    (simpleAutomaton demoKp demoGraph 0).Runs ([1, 2], [])
      (AutomatonResult.EmptyIter 2, ([], [101, 202])) := by
  have htrace : (simpleGraphStates demoKp demoGraph).ReachesIn 2 0 ([1, 2], [])
      2 ([], [101, 202]) :=
    AutomatonState.ReachesIn.step rfl
      (AutomatonState.ReachesIn.step rfl (AutomatonState.ReachesIn.refl _ _))
  exact (run_exhaustion_empty_iter demoKp demoGraph 0 ([1, 2], []) htrace
    (show demoKp.next_key ([], [101, 202]) = (none, ([], [101, 202])) from rfl)).1

/-- C7: the run loop has no step budget and no cycle detection: over a
state whose single connection matches every key, runs a succeeding
action and targets the state itself, every visit consumes exactly one
key and yields `Continue` back to the same state, and with a key source
that always yields a key the run loop returns no result at any fuel, so
`run` never returns. -/
theorem self_loop_unbounded_never_returns
    (kp : KeyProvidingData K D) (g : σ → SimpleStateImplementation K σ Id D E)
    (s0 : σ) (act : D → K → Except E Unit × D)
    (hconns : (g s0).next_states =
      [{ matcher := fun _ => true, exec_function := act, connected_state := s0 }])
    (hact : ∀ d k, (act d k).1 = Except.ok ())
    (hkeys : ∀ d, ∃ k d1, kp.next_key d = (some k, d1)) :
    (∀ d k d1, kp.next_key d = (some k, d1) →
        (g s0).execute_next_connection kp d =
          (Except.ok (NextState.Continue s0), (act d1 k).2)) ∧
    (∀ fuel d, (simpleAutomaton kp g s0).run fuel d = none) ∧
    (∀ d r, ¬ (simpleAutomaton kp g s0).Runs d r) := by
  have hvisit : ∀ d k d1, kp.next_key d = (some k, d1) →
      (g s0).execute_next_connection kp d =
        (Except.ok (NextState.Continue s0), (act d1 k).2) := by
    intro d k d1 hk
    have hbase : (g s0).execute_next_connection kp d =
        SimpleStateImplementation.scanConnections k (g s0).next_states d1 := by
      simp [SimpleStateImplementation.execute_next_connection, hk]
    rw [hbase, hconns,
      SimpleStateImplementation.scanConnections_cons_match _ _ rfl]
    cases hx : act d1 k with
    | mk res d2 =>
      have h1 := hact d1 k
      rw [hx] at h1
      simp only at h1
      subst h1
      simp [hx]
  have hnever : ∀ fuel d, (simpleGraphStates kp g).runFrom fuel s0 d = none := by
    intro fuel
    induction fuel with
    | zero => intro d; rfl
    | succ m ih =>
        intro d
        obtain ⟨k, d1, hk⟩ := hkeys d
        have hstep : (simpleGraphStates kp g).execute_next_connection s0 d =
            (Except.ok (NextState.Continue s0), (act d1 k).2) := hvisit d k d1 hk
        rw [AutomatonState.runFrom_succ, hstep]
        exact ih _
  refine ⟨hvisit, ?_, ?_⟩
  · intro fuel d
    exact hnever fuel d
  · intro d r hr
    obtain ⟨fuel, h⟩ := hr
    rw [show (simpleAutomaton kp g s0).run fuel d =
      (simpleGraphStates kp g).runFrom fuel s0 d from rfl, hnever fuel d] at h
    exact Option.noConfusion h

/-- Witness for C7 at a concrete input: the one-state always-matching
self-loop graph, fed the unbounded counter key source, yields no result
at fuel 50 and does not satisfy the run relation. -/
theorem self_loop_unbounded_never_returns_witness :
    (simpleAutomaton countKp loopGraph 0).run 50 0 = none ∧
    ¬ (simpleAutomaton countKp loopGraph 0).Runs 0 (AutomatonResult.EmptyIter 0, 0) := by
  have h := self_loop_unbounded_never_returns countKp loopGraph 0
    (fun d _ => (Except.ok (), d)) rfl (fun d k => rfl) (fun d => ⟨d, d + 1, rfl⟩)
  exact ⟨h.2.1 50 0, h.2.2 0 (AutomatonResult.EmptyIter 0, 0)⟩

/-- C10: re-running is well-defined and independent of prior runs: the
run relation of a frozen engine is deterministic per initial context,
the outcomes of runs on two independent contexts depend only on their
own context, and an engine separately constructed with the same graph
dispatch table and the same start state produces the same result. -/
theorem rerun_independent_wellDefined
    (a : Automaton σ Id D E) (d1 d2 : D)
    (r1 r2 r1' r2' : AutomatonResult Id E × D)
    (h1 : a.Runs d1 r1) (h2 : a.Runs d2 r2)
    (h1' : a.Runs d1 r1') (h2' : a.Runs d2 r2') :
    (r1' = r1 ∧ r2' = r2) ∧
    ∀ b : Automaton σ Id D E, b.states = a.states → b.start_state = a.start_state →
      ∀ rb, b.Runs d1 rb → rb = r1 := by
  refine ⟨⟨a.runs_unique h1' h1, a.runs_unique h2' h2⟩, ?_⟩
  intro b hbs hbst rb hb
  have hb' : a.Runs d1 rb := by
    obtain ⟨fuel, h⟩ := hb
    refine ⟨fuel, ?_⟩
    show a.states.runFrom fuel a.start_state d1 = some rb
    rw [← hbs, ← hbst]
    exact h
  exact a.runs_unique hb' h1

/-- Witness for C10 at concrete inputs: the demo engine run twice, with
a fresh exhausting context and a fresh failing context, at differing
fuels, reproduces the same two outcomes. -/
theorem rerun_independent_wellDefined_witness :
    (((AutomatonResult.EmptyIter 2 : AutomatonResult Nat Nat), (([] : List Nat), [101, 202])) =
        ((AutomatonResult.EmptyIter 2 : AutomatonResult Nat Nat), (([] : List Nat), [101, 202])) ∧
      ((AutomatonResult.Error 7 : AutomatonResult Nat Nat), (([] : List Nat), [101])) =
        ((AutomatonResult.Error 7 : AutomatonResult Nat Nat), (([] : List Nat), [101]))) := by
  have h := rerun_independent_wellDefined (simpleAutomaton demoKp demoGraph 0)
    ([1, 2], []) ([1, 9], [])
    (AutomatonResult.EmptyIter 2, ([], [101, 202]))
    (AutomatonResult.Error 7, ([], [101]))
    (AutomatonResult.EmptyIter 2, ([], [101, 202]))
    (AutomatonResult.Error 7, ([], [101]))
    ⟨3, by decide⟩ ⟨2, by decide⟩ ⟨7, by decide⟩ ⟨9, by decide⟩
  exact h.1
